import Mathlib

/-
Verification of the Color Engine (palette extractor, scheme generator,
WCAG contrast checker) of this repository.  The JavaScript source is
embedded shallowly: JS numbers on the color paths are exact rationals
(all operations used there are field operations, floor/round and `%`),
except relative luminance, which uses `Math.pow(_, 2.4)` and is embedded
over the reals.  JS `NaN` poisoning of `parseInt` failures is modelled by
`Option`.
-/

set_option maxRecDepth 20000

namespace ColorTool

/-- JS `Math.round`: round half towards positive infinity. -/
def jsRound (q : ℚ) : ℤ := ⌊q + 1/2⌋

/-- JS `%` (fmod): remainder with the sign of the dividend, for a positive
modulus.  For a nonnegative dividend it is the floor-based remainder. -/
def jsMod (a b : ℚ) : ℚ :=
  if a < 0 then -((-a) - b * ⌊(-a) / b⌋) else a - b * ⌊a / b⌋

/-- Lowercase hex digit characters, as produced by JS `Number.toString(16)`:
code 48 is the zero digit, code 97 is lowercase a. -/
def hexDigitChar (n : ℕ) : Char :=
  if n < 10 then Char.ofNat (48 + n) else Char.ofNat (87 + n)

/-- Numeric value of a hex digit character (0-9, a-f, A-F). -/
def hexVal (c : Char) : ℕ :=
  if c = '0' then 0 else if c = '1' then 1 else if c = '2' then 2
  else if c = '3' then 3 else if c = '4' then 4 else if c = '5' then 5
  else if c = '6' then 6 else if c = '7' then 7 else if c = '8' then 8
  else if c = '9' then 9
  else if c = 'a' then 10 else if c = 'b' then 11 else if c = 'c' then 12
  else if c = 'd' then 13 else if c = 'e' then 14 else if c = 'f' then 15
  else if c = 'A' then 10 else if c = 'B' then 11 else if c = 'C' then 12
  else if c = 'D' then 13 else if c = 'E' then 14 else if c = 'F' then 15
  else 0

/-- Characters accepted as digits by JS `parseInt(_, 16)`. -/
def isHexDigitChar (c : Char) : Bool :=
  (c = '0') || (c = '1') || (c = '2') || (c = '3') || (c = '4') ||
  (c = '5') || (c = '6') || (c = '7') || (c = '8') || (c = '9') ||
  (c = 'a') || (c = 'b') || (c = 'c') || (c = 'd') || (c = 'e') || (c = 'f') ||
  (c = 'A') || (c = 'B') || (c = 'C') || (c = 'D') || (c = 'E') || (c = 'F')

/-- Lowercase-only hex digits (the alphabet of `Number.toString(16)` output). -/
def isLowerHexDigit (c : Char) : Bool :=
  (c = '0') || (c = '1') || (c = '2') || (c = '3') || (c = '4') ||
  (c = '5') || (c = '6') || (c = '7') || (c = '8') || (c = '9') ||
  (c = 'a') || (c = 'b') || (c = 'c') || (c = 'd') || (c = 'e') || (c = 'f')

/-- Hex digit expansion, most significant first, structurally recursive on
a fuel argument so that it evaluates inside the kernel.  `fuel = n + 1`
always suffices because the value shrinks by a factor of 16 each step. -/
def natHexCharsAux : ℕ → ℕ → List Char
  | 0, _ => []
  | fuel + 1, n =>
      if n < 16 then [hexDigitChar n]
      else natHexCharsAux fuel (n / 16) ++ [hexDigitChar (n % 16)]

/-- Hex digit list of a natural number, as JS `n.toString(16)` (lowercase,
no padding, `0` renders as `"0"`). -/
def natHexChars (n : ℕ) : List Char := natHexCharsAux (n + 1) n

/-- Hex digit list of an integer, as JS `i.toString(16)` (negative numbers
render with a leading minus sign). -/
def intHexChars (i : ℤ) : List Char :=
  if i < 0 then '-' :: natHexChars i.natAbs else natHexChars i.toNat

/-- Padding used by `rgbToHex`: `hex.length === 1 ? '0' + hex : hex`. -/
def pad2 (cs : List Char) : List Char :=
  if cs.length = 1 then '0' :: cs else cs

/-- Padding used by `hslToHex`: `.padStart(2, '0')`. -/
def padStart2 (cs : List Char) : List Char :=
  List.replicate (2 - cs.length) '0' ++ cs

/-- Source `rgbToHex(r, g, b)`: each channel rendered via `toString(16)`,
padded to two digits only when it came out as a single digit, joined and
prefixed with a hash.  Out-of-range channels are not clamped. -/
def rgbToHex (r g b : ℕ) : String :=
  String.mk ('#' :: (pad2 (natHexChars r) ++ pad2 (natHexChars g) ++ pad2 (natHexChars b)))

/-- An RGB triple as parsed from a hex string. -/
structure Color where
  r : ℕ
  g : ℕ
  b : ℕ
  deriving DecidableEq

/-- JS `s.slice(a, b)` as a character list. -/
def strSlice (s : String) (a b : ℕ) : List Char :=
  ((s.toList).drop a).take (b - a)

/-- JS `parseInt(s, 16)`: parse the maximal hex-digit prefix; `NaN` (no
digit at all) is modelled as `none`.  Leading whitespace, signs and an
`0x` prefix never occur at the call sites in this program and are not
modelled. -/
def jsParseHex (cs : List Char) : Option ℕ :=
  let ds := cs.takeWhile isHexDigitChar
  if ds.isEmpty then none
  else some (ds.foldl (fun acc c => 16 * acc + hexVal c) 0)

/-- The hex-to-RGB parsing shared by `getContrastColor`, `hexToHsl` and
`getLuminance`: `parseInt(hex.slice(1, 3), 16)` and so on.  It assumes a
leading hash and performs no validation; a `NaN` channel poisons the
result (`none`). -/
def hexChannels (s : String) : Option Color :=
  match jsParseHex (strSlice s 1 3), jsParseHex (strSlice s 3 5), jsParseHex (strSlice s 5 7) with
  | some r, some g, some b => some ⟨r, g, b⟩
  | _, _, _ => none

/-- Modelled from the spec: a string matches the 6-hex-digit pattern, with
or without a leading hash. -/
def matchesHex6 (s : String) : Bool :=
  let cs := if s.toList.headD ' ' = '#' then s.toList.tail else s.toList
  cs.length = 6 && cs.all isHexDigitChar

/-- HSL triple: hue in degrees, saturation and lightness as percentages,
exactly as the source's `hexToHsl` returns them. -/
structure HSL where
  h : ℚ
  s : ℚ
  l : ℚ
  deriving DecidableEq

/-- Numeric body of `hexToHsl` on the three channel values already divided
by 255. -/
def rgbToHslQ (r g b : ℚ) : HSL :=
  let maxV := max r (max g b)
  let minV := min r (min g b)
  let l := (maxV + minV) / 2
  if maxV = minV then ⟨0, 0, l * 100⟩
  else
    let d := maxV - minV
    let s := if l > 1/2 then d / (2 - maxV - minV) else d / (maxV + minV)
    let h :=
      if maxV = r then ((g - b) / d + (if g < b then 6 else 0)) / 6
      else if maxV = g then ((b - r) / d + 2) / 6
      else ((r - g) / d + 4) / 6
    ⟨h * 360, s * 100, l * 100⟩

/-- `hexToHsl` body on parsed integer channels. -/
def rgbToHsl (ri gi bi : ℕ) : HSL :=
  rgbToHslQ ((ri : ℚ) / 255) ((gi : ℚ) / 255) ((bi : ℚ) / 255)

/-- Source `hexToHsl(hex)`: parse the three channels, then convert. -/
def hexToHsl (s : String) : Option HSL :=
  (hexChannels s).map fun c => rgbToHsl c.r c.g c.b

/-- The clamp `Math.max(Math.min(k - 3, 9 - k, 1), -1)` of `hslToHex`. -/
def clampQ (k : ℚ) : ℚ := max (min (min (k - 3) (9 - k)) 1) (-1)

/-- The unrounded channel value of `hslToHex`'s helper `f(n)`:
`l - a * max(min(k - 3, 9 - k, 1), -1)` with `k = (n + h / 30) % 12` and
`a = s * min(l, 1 - l)` (saturation and lightness already rescaled to
`[0, 1]`). -/
def hslColorVal (h s l n : ℚ) : ℚ :=
  let s' := s / 100
  let l' := l / 100
  let a := s' * min l' (1 - l')
  let k := jsMod (n + h / 30) 12
  l' - a * clampQ k

/-- The rounded channel returned by `hslToHex`'s `f(n)`:
`Math.round(255 * color)`. -/
def hslF (h s l n : ℚ) : ℤ := jsRound (255 * hslColorVal h s l n)

/-- Source `hslToHex(h, s, l)`: the three channels `f(0)`, `f(8)`, `f(4)`,
each rendered via `toString(16).padStart(2, '0')`. -/
def hslToHex (h s l : ℚ) : String :=
  String.mk ('#' :: (padStart2 (intHexChars (hslF h s l 0)) ++
                     padStart2 (intHexChars (hslF h s l 8)) ++
                     padStart2 (intHexChars (hslF h s l 4))))

/-- A generated scheme entry: hex string plus role name. -/
structure SchemeEntry where
  hex : String
  name : String
  deriving DecidableEq

/-- Source `generateScheme()`: convert the base to HSL, then the switch on
the scheme type.  A kind not among the six cases leaves `currentScheme`
empty (the switch has no default).  The parse result is threaded through
`Option` (NaN poisoning). -/
def generateScheme (hex kind : String) : Option (List SchemeEntry) :=
  (hexToHsl hex).map fun hsl =>
    if kind = "complementary" then
      [⟨hex, "Base"⟩,
       ⟨hslToHex (jsMod (hsl.h + 180) 360) hsl.s hsl.l, "Complementary"⟩]
    else if kind = "analogous" then
      [⟨hslToHex (jsMod (hsl.h - 30 + 360) 360) hsl.s hsl.l, "Analogous 1"⟩,
       ⟨hslToHex (jsMod (hsl.h - 15 + 360) 360) hsl.s hsl.l, "Analogous 2"⟩,
       ⟨hex, "Base"⟩,
       ⟨hslToHex (jsMod (hsl.h + 15) 360) hsl.s hsl.l, "Analogous 3"⟩,
       ⟨hslToHex (jsMod (hsl.h + 30) 360) hsl.s hsl.l, "Analogous 4"⟩]
    else if kind = "triadic" then
      [⟨hex, "Primary"⟩,
       ⟨hslToHex (jsMod (hsl.h + 120) 360) hsl.s hsl.l, "Secondary"⟩,
       ⟨hslToHex (jsMod (hsl.h + 240) 360) hsl.s hsl.l, "Tertiary"⟩]
    else if kind = "tetradic" then
      [⟨hex, "Primary"⟩,
       ⟨hslToHex (jsMod (hsl.h + 90) 360) hsl.s hsl.l, "Secondary"⟩,
       ⟨hslToHex (jsMod (hsl.h + 180) 360) hsl.s hsl.l, "Tertiary"⟩,
       ⟨hslToHex (jsMod (hsl.h + 270) 360) hsl.s hsl.l, "Quaternary"⟩]
    else if kind = "monochromatic" then
      [⟨hslToHex hsl.h hsl.s 20, "Dark"⟩,
       ⟨hslToHex hsl.h hsl.s 40, "Medium Dark"⟩,
       ⟨hex, "Base"⟩,
       ⟨hslToHex hsl.h hsl.s 70, "Medium Light"⟩,
       ⟨hslToHex hsl.h hsl.s 90, "Light"⟩]
    else if kind = "split-complementary" then
      [⟨hex, "Base"⟩,
       ⟨hslToHex (jsMod (hsl.h + 150) 360) hsl.s hsl.l, "Split 1"⟩,
       ⟨hslToHex (jsMod (hsl.h + 210) 360) hsl.s hsl.l, "Split 2"⟩]
    else []

/-- Modelled from the spec: wrapping a hue into `[0, 360)` (the floor-based
remainder).  Where the source adds hue offsets, every JS `%` dividend is
nonnegative (negative offsets are pre-shifted by `+ 360`), so the source's
`%` agrees with this on all reachable inputs. -/
def wrap360 (a : ℚ) : ℚ := a - 360 * ⌊a / 360⌋

/-- A palette entry of `extractedColors`: hex string and `rgb(r, g, b)`
string. -/
structure PaletteEntry where
  hex : String
  rgb : String
  deriving DecidableEq

/-- The result `extractColors` displays: dominant hex plus the top-ten
palette. -/
structure ExtractResult where
  dominant : String
  topColors : List PaletteEntry
  deriving DecidableEq

/-- A thrown JS exception.  `extractColors` can only throw a `TypeError`
(property access on `undefined`). -/
inductive JsError where
  | typeError
  deriving DecidableEq

instance instDecEqExceptJs {ε α : Type} [DecidableEq ε] [DecidableEq α] :
    DecidableEq (Except ε α) := fun a b =>
  match a, b with
  | .error x, .error y =>
      if h : x = y then .isTrue (congrArg Except.error h)
      else .isFalse fun hh => h (Except.error.inj hh)
  | .ok x, .ok y =>
      if h : x = y then .isTrue (congrArg Except.ok h)
      else .isFalse fun hh => h (Except.ok.inj hh)
  | .error _, .ok _ => .isFalse fun hh => Except.noConfusion hh
  | .ok _, .error _ => .isFalse fun hh => Except.noConfusion hh

/-- Quantization of one channel: `Math.round(v / 16) * 16`. -/
def quantize (v : ℕ) : ℕ := (jsRound ((v : ℚ) / 16)).toNat * 16

/-- Structurally recursive worker for the sampling loop (fuel-based so the
kernel can evaluate it; the list length is always sufficient fuel since
each step consumes at least four bytes). -/
def samplePixelsAux : ℕ → List ℕ → List (ℕ × ℕ × ℕ × ℕ)
  | 0, _ => []
  | fuel + 1, r :: g :: b :: a :: rest => (r, g, b, a) :: samplePixelsAux fuel (rest.drop 36)
  | _ + 1, _ => []

/-- The sampling loop `for (let i = 0; i < imageData.length; i += 40)`:
read four bytes at every 40th offset (every 10th RGBA pixel).  `ImageData`
lengths are multiples of 4, so the four reads are always in bounds. -/
def samplePixels (data : List ℕ) : List (ℕ × ℕ × ℕ × ℕ) :=
  samplePixelsAux data.length data

/-- One iteration of the sampling loop on the `colorMap` association list:
skip the pixel when `alpha < 128`, otherwise bump the quantized bucket.
JS object string keys (the keys contain commas, so they are not
integer-like) enumerate in insertion order, which the association list
preserves: a new key is appended, an existing one is bumped in place. -/
def bump (m : List ((ℕ × ℕ × ℕ) × ℕ)) (k : ℕ × ℕ × ℕ) : List ((ℕ × ℕ × ℕ) × ℕ) :=
  match m with
  | [] => [(k, 1)]
  | (k', c) :: rest => if k' = k then (k', c + 1) :: rest else (k', c) :: bump rest k

/-- Accumulate the `colorMap` over the sampled pixels. -/
def tallyPixel (m : List ((ℕ × ℕ × ℕ) × ℕ)) (p : ℕ × ℕ × ℕ × ℕ) :
    List ((ℕ × ℕ × ℕ) × ℕ) :=
  if p.2.2.2 < 128 then m
  else bump m (quantize p.1, quantize p.2.1, quantize p.2.2.1)

/-- `Object.entries(colorMap)` in insertion order. -/
def buildMap (data : List ℕ) : List ((ℕ × ℕ × ℕ) × ℕ) :=
  (samplePixels data).foldl tallyPixel []

/-- Insert one entry into an already-sorted suffix, keeping it before every
entry of equal count (the entry being inserted is the earlier one). -/
def insertDesc (x : (ℕ × ℕ × ℕ) × ℕ) :
    List ((ℕ × ℕ × ℕ) × ℕ) → List ((ℕ × ℕ × ℕ) × ℕ)
  | [] => [x]
  | y :: ys => if x.2 < y.2 then y :: insertDesc x ys else x :: y :: ys

/-- `Array.prototype.sort((a, b) => b[1] - a[1])`: a stable sort by
descending count (ES2019 guarantees sort stability).  Any stable sort by
this comparator is extensionally the same list; insertion sort is used
here. -/
def sortColors : List ((ℕ × ℕ × ℕ) × ℕ) → List ((ℕ × ℕ × ℕ) × ℕ)
  | [] => []
  | x :: xs => insertDesc x (sortColors xs)

/-- The template literal `rgb(r, g, b)`. -/
def rgbString (r g b : ℕ) : String :=
  "rgb(" ++ toString r ++ ", " ++ toString g ++ ", " ++ toString b ++ ")"

/-- Source `extractColors` after the canvas has produced the (possibly
downscaled) RGBA byte buffer: sample, tally, sort, then read the dominant
bucket and the top-ten palette.  When no pixel qualifies, `sortedColors`
is empty, `sortedColors[0]` is `undefined`, and `dominant.r` throws a
`TypeError`. -/
def extractColors (data : List ℕ) : Except JsError ExtractResult :=
  let sorted := sortColors (buildMap data)
  match sorted with
  | [] => .error .typeError
  | d :: _ =>
      .ok { dominant := rgbToHex d.1.1 d.1.2.1 d.1.2.2,
            topColors := (sorted.take 10).map fun e =>
              ⟨rgbToHex e.1.1 e.1.2.1 e.1.2.2, rgbString e.1.1 e.1.2.1 e.1.2.2⟩ }

/-- The quantized bucket keys of the qualifying sampled pixels, in pass
order (used to express the spec's tie-breaking rule). -/
def qualifyKeys (data : List ℕ) : List (ℕ × ℕ × ℕ) :=
  (samplePixels data).filterMap fun p =>
    if p.2.2.2 < 128 then none
    else some (quantize p.1, quantize p.2.1, quantize p.2.2.1)

/-- Modelled from the spec: the position in the pass at which a bucket
key's running count first reaches `c`. -/
def firstReachAux (k : ℕ × ℕ × ℕ) (c : ℕ) :
    List (ℕ × ℕ × ℕ) → ℕ → ℕ → Option ℕ
  | [], _, _ => none
  | x :: xs, idx, cnt =>
      if x = k then
        if cnt + 1 = c then some idx else firstReachAux k c xs (idx + 1) (cnt + 1)
      else firstReachAux k c xs (idx + 1) cnt

/-- Modelled from the spec: earliest pass index at which `k` reaches count
`c`. -/
def firstReach (keys : List (ℕ × ℕ × ℕ)) (k : ℕ × ℕ × ℕ) (c : ℕ) : Option ℕ :=
  firstReachAux k c keys 0 0

/-- Concrete image used to separate first-insertion order from
earliest-to-reach-the-final-count order: forty RGBA pixels; the sampled
pixels (indices 0, 10, 20, 30) are black, gray, gray, black, all opaque. -/
def tieImage : List ℕ :=
  [0, 0, 0, 255] ++ List.replicate 36 0 ++
  [32, 32, 32, 255] ++ List.replicate 36 0 ++
  [32, 32, 32, 255] ++ List.replicate 36 0 ++
  [0, 0, 0, 255] ++ List.replicate 36 0

noncomputable section

/-- The per-channel map of `getLuminance`:
`v <= 0.03928 ? v / 12.92 : Math.pow((v + 0.055) / 1.055, 2.4)`. -/
def srgbLin (v : ℝ) : ℝ :=
  if v ≤ 0.03928 then v / 12.92 else ((v + 0.055) / 1.055) ^ (2.4 : ℝ)

/-- Numeric body of `getLuminance` on a parsed color:
`a[0] * 0.2126 + a[1] * 0.7152 + a[2] * 0.0722`. -/
def luminance (c : Color) : ℝ :=
  srgbLin ((c.r : ℝ) / 255) * 0.2126 + srgbLin ((c.g : ℝ) / 255) * 0.7152 +
    srgbLin ((c.b : ℝ) / 255) * 0.0722

/-- Source `getLuminance(hex)`: slice-parse the three channels, then the
weighted sum of the linearized channels. -/
def getLuminance (s : String) : Option ℝ := (hexChannels s).map luminance

/-- The contrast checker's displayed outcome: the ratio and the four
WCAG pass flags. -/
structure ContrastResult where
  ratio : ℝ
  aaNormal : Prop
  aaLarge : Prop
  aaaNormal : Prop
  aaaLarge : Prop

/-- Source `checkContrast()`:
`ratio = (max(fgLum, bgLum) + 0.05) / (min(fgLum, bgLum) + 0.05)` and the
four threshold comparisons shown as PASS/FAIL. -/
def checkContrast (fg bg : String) : Option ContrastResult :=
  match getLuminance fg, getLuminance bg with
  | some fgLum, some bgLum =>
      let ratio := (max fgLum bgLum + 0.05) / (min fgLum bgLum + 0.05)
      some { ratio := ratio, aaNormal := ratio ≥ 4.5, aaLarge := ratio ≥ 3,
             aaaNormal := ratio ≥ 7, aaaLarge := ratio ≥ 4.5 }
  | _, _ => none

/-- Modelled from the spec: the WCAG 2.1 per-channel sRGB-to-linear
transform, mapping linearly (divide by 12.92) when the value is at most
0.03928 and via `((v + 0.055) / 1.055) ^ 2.4` otherwise. -/
def wcagLinear (v : ℝ) : ℝ :=
  if v ≤ 0.03928 then v / 12.92 else ((v + 0.055) / 1.055) ^ (2.4 : ℝ)

/-- Modelled from the spec: WCAG 2.1 relative luminance, the linearized
channels combined with weights 0.2126 (R), 0.7152 (G), 0.0722 (B). -/
def wcagRelativeLuminance (c : Color) : ℝ :=
  0.2126 * wcagLinear ((c.r : ℝ) / 255) + 0.7152 * wcagLinear ((c.g : ℝ) / 255) +
    0.0722 * wcagLinear ((c.b : ℝ) / 255)

end

unseal Rat.add Rat.mul Rat.inv Rat.sub

theorem srgbLin_nonneg (v : ℝ) (h0 : 0 ≤ v) : 0 ≤ srgbLin v := by
  unfold srgbLin
  split
  · positivity
  · exact Real.rpow_nonneg (by positivity) _

theorem srgbLin_le_one (v : ℝ) (h1 : v ≤ 1) : srgbLin v ≤ 1 := by
  unfold srgbLin
  split_ifs with h
  · rw [div_le_one (by norm_num)]
    linarith
  · push_neg at h
    refine Real.rpow_le_one (div_nonneg (by linarith) (by norm_num)) ?_ (by norm_num)
    rw [div_le_one (by norm_num)]
    linarith

theorem channel01 (n : ℕ) (h : n ≤ 255) : 0 ≤ (n : ℝ) / 255 ∧ (n : ℝ) / 255 ≤ 1 := by
  constructor
  · positivity
  · rw [div_le_one (by norm_num)]
    exact_mod_cast h

/-- C2: for every Color with channels in [0, 255], the source
`getLuminance` body agrees exactly with the WCAG 2.1 relative-luminance
formula modelled from the spec, and the result lies in [0, 1]. -/
theorem luminance_wcag_exact (c : Color) (hr : c.r ≤ 255) (hg : c.g ≤ 255)
    (hb : c.b ≤ 255) :
    luminance c = wcagRelativeLuminance c ∧ 0 ≤ luminance c ∧ luminance c ≤ 1 := by
  obtain ⟨hr0, hr1⟩ := channel01 c.r hr
  obtain ⟨hg0, hg1⟩ := channel01 c.g hg
  obtain ⟨hb0, hb1⟩ := channel01 c.b hb
  refine ⟨?_, ?_, ?_⟩
  · simp only [luminance, wcagRelativeLuminance, srgbLin, wcagLinear]
    ring
  · have := srgbLin_nonneg _ hr0
    have := srgbLin_nonneg _ hg0
    have := srgbLin_nonneg _ hb0
    unfold luminance
    linarith
  · have := srgbLin_le_one _ hr1
    have := srgbLin_le_one _ hg1
    have := srgbLin_le_one _ hb1
    have := srgbLin_nonneg _ hr0
    have := srgbLin_nonneg _ hg0
    have := srgbLin_nonneg _ hb0
    unfold luminance
    linarith

/-- Witness for C2 at the concrete color black. -/
theorem luminance_wcag_exact_witness :
    luminance ⟨0, 0, 0⟩ = wcagRelativeLuminance ⟨0, 0, 0⟩ ∧
    0 ≤ luminance ⟨0, 0, 0⟩ ∧ luminance ⟨0, 0, 0⟩ ≤ 1 :=
  luminance_wcag_exact ⟨0, 0, 0⟩ (by norm_num) (by norm_num) (by norm_num)

/-- C1: for every parsable pair of colors, `checkContrast` returns the
ratio `(max(L1, L2) + 0.05) / (min(L1, L2) + 0.05)` over the two relative
luminances, and each pass flag holds iff the ratio clears its WCAG
threshold (AA normal 4.5, AA large 3, AAA normal 7, AAA large 4.5). -/
theorem checkContrast_ratio_and_flags (fg bg : String) (cf cb : Color)
    (hf : hexChannels fg = some cf) (hb : hexChannels bg = some cb) :
    ∃ res, checkContrast fg bg = some res ∧
      res.ratio = (max (luminance cf) (luminance cb) + 0.05) /
                  (min (luminance cf) (luminance cb) + 0.05) ∧
      (res.aaNormal ↔ res.ratio ≥ 4.5) ∧ (res.aaLarge ↔ res.ratio ≥ 3) ∧
      (res.aaaNormal ↔ res.ratio ≥ 7) ∧ (res.aaaLarge ↔ res.ratio ≥ 4.5) := by
  unfold checkContrast getLuminance
  rw [hf, hb]
  simp only [Option.map_some']
  exact ⟨_, rfl, rfl, Iff.rfl, Iff.rfl, Iff.rfl, Iff.rfl⟩

/-- Witness for C1 at black on white. -/
theorem checkContrast_ratio_and_flags_witness :
    ∃ res, checkContrast "#000000" "#ffffff" = some res ∧
      res.ratio = (max (luminance ⟨0, 0, 0⟩) (luminance ⟨255, 255, 255⟩) + 0.05) /
                  (min (luminance ⟨0, 0, 0⟩) (luminance ⟨255, 255, 255⟩) + 0.05) ∧
      (res.aaNormal ↔ res.ratio ≥ 4.5) ∧ (res.aaLarge ↔ res.ratio ≥ 3) ∧
      (res.aaaNormal ↔ res.ratio ≥ 7) ∧ (res.aaaLarge ↔ res.ratio ≥ 4.5) :=
  checkContrast_ratio_and_flags "#000000" "#ffffff" ⟨0, 0, 0⟩ ⟨255, 255, 255⟩
    (by decide) (by decide)

theorem jsMod_eq_wrap360 (a : ℚ) (h : 0 ≤ a) : jsMod a 360 = wrap360 a := by
  unfold jsMod wrap360
  rw [if_neg (not_lt.2 h)]

theorem wrap360_mem (a : ℚ) : 0 ≤ wrap360 a ∧ wrap360 a < 360 := by
  have hf : wrap360 a = 360 * Int.fract (a / 360) := by
    unfold wrap360 Int.fract
    field_simp
  have h0 := Int.fract_nonneg (a / 360)
  have h1 := Int.fract_lt_one (a / 360)
  constructor <;> rw [hf] <;> linarith

theorem wrap360_add_360 (a : ℚ) : wrap360 (a + 360) = wrap360 a := by
  unfold wrap360
  have hdiv : (a + 360) / 360 = a / 360 + 1 := by ring
  rw [hdiv, Int.floor_add_one]
  push_cast
  ring

theorem rgbToHslQ_hue_range (r g b : ℚ) :
    0 ≤ (rgbToHslQ r g b).h ∧ (rgbToHslQ r g b).h < 360 := by
  unfold rgbToHslQ
  by_cases he : max r (max g b) = min r (min g b)
  · rw [if_pos he]
    norm_num
  · rw [if_neg he]
    have hmM : min r (min g b) ≤ max r (max g b) :=
      le_trans (min_le_left _ _) (le_max_left _ _)
    have hlt : min r (min g b) < max r (max g b) :=
      lt_of_le_of_ne hmM fun hh => he hh.symm
    have hd : (0 : ℚ) < max r (max g b) - min r (min g b) := by linarith
    have hrM : r ≤ max r (max g b) := le_max_left _ _
    have hgM : g ≤ max r (max g b) := le_trans (le_max_left g b) (le_max_right r _)
    have hbM : b ≤ max r (max g b) := le_trans (le_max_right g b) (le_max_right r _)
    have hmr : min r (min g b) ≤ r := min_le_left _ _
    have hmg : min r (min g b) ≤ g := le_trans (min_le_right r _) (min_le_left g b)
    have hmb : min r (min g b) ≤ b := le_trans (min_le_right r _) (min_le_right g b)
    simp only
    split_ifs with h1 h2 h3
    · have ht2 : (-1 : ℚ) ≤ (g - b) / (max r (max g b) - min r (min g b)) :=
        (le_div_iff₀ hd).2 (by linarith)
      have ht3 : (g - b) / (max r (max g b) - min r (min g b)) < 0 :=
        div_neg_of_neg_of_pos (by linarith) hd
      constructor <;> nlinarith
    · have ht0 : (0 : ℚ) ≤ (g - b) / (max r (max g b) - min r (min g b)) :=
        div_nonneg (by linarith [not_lt.1 h2]) hd.le
      have ht1 : (g - b) / (max r (max g b) - min r (min g b)) ≤ 1 :=
        (div_le_one hd).2 (by linarith)
      constructor <;> nlinarith
    · have ht2 : (-1 : ℚ) ≤ (b - r) / (max r (max g b) - min r (min g b)) :=
        (le_div_iff₀ hd).2 (by linarith)
      have ht1 : (b - r) / (max r (max g b) - min r (min g b)) ≤ 1 :=
        (div_le_one hd).2 (by linarith)
      constructor <;> nlinarith
    · have ht2 : (-1 : ℚ) ≤ (r - g) / (max r (max g b) - min r (min g b)) :=
        (le_div_iff₀ hd).2 (by linarith)
      have ht1 : (r - g) / (max r (max g b) - min r (min g b)) ≤ 1 :=
        (div_le_one hd).2 (by linarith)
      constructor <;> nlinarith

theorem hexToHsl_hue_range (s : String) (hsl : HSL) (hp : hexToHsl s = some hsl) :
    0 ≤ hsl.h ∧ hsl.h < 360 := by
  unfold hexToHsl at hp
  rw [Option.map_eq_some'] at hp
  obtain ⟨c, _, hc⟩ := hp
  rw [← hc]
  exact rgbToHslQ_hue_range _ _ _

/-- C3: for every parsable base color, `generateScheme` produces, for each
of the six recognized kinds, exactly the ordered entry list of the spec's
offset table — hues offset by the tabulated amounts and wrapped into
[0, 360) by `wrap360`, saturation and lightness preserved from the base
for every non-monochromatic entry, and for monochromatic only the
lightness overridden to 20, 40, original, 70, 90.  The base hue itself
lies in [0, 360), and wrapping always lands in [0, 360).  The output is a
function of the base color and kind alone, hence deterministic. -/
theorem generateScheme_follows_spec_table (hex : String) (hsl : HSL) (x : ℚ)
    (hp : hexToHsl hex = some hsl) :
    generateScheme hex "complementary" = some
      [⟨hex, "Base"⟩,
       ⟨hslToHex (wrap360 (hsl.h + 180)) hsl.s hsl.l, "Complementary"⟩] ∧
    generateScheme hex "analogous" = some
      [⟨hslToHex (wrap360 (hsl.h - 30)) hsl.s hsl.l, "Analogous 1"⟩,
       ⟨hslToHex (wrap360 (hsl.h - 15)) hsl.s hsl.l, "Analogous 2"⟩,
       ⟨hex, "Base"⟩,
       ⟨hslToHex (wrap360 (hsl.h + 15)) hsl.s hsl.l, "Analogous 3"⟩,
       ⟨hslToHex (wrap360 (hsl.h + 30)) hsl.s hsl.l, "Analogous 4"⟩] ∧
    generateScheme hex "triadic" = some
      [⟨hex, "Primary"⟩,
       ⟨hslToHex (wrap360 (hsl.h + 120)) hsl.s hsl.l, "Secondary"⟩,
       ⟨hslToHex (wrap360 (hsl.h + 240)) hsl.s hsl.l, "Tertiary"⟩] ∧
    generateScheme hex "tetradic" = some
      [⟨hex, "Primary"⟩,
       ⟨hslToHex (wrap360 (hsl.h + 90)) hsl.s hsl.l, "Secondary"⟩,
       ⟨hslToHex (wrap360 (hsl.h + 180)) hsl.s hsl.l, "Tertiary"⟩,
       ⟨hslToHex (wrap360 (hsl.h + 270)) hsl.s hsl.l, "Quaternary"⟩] ∧
    generateScheme hex "monochromatic" = some
      [⟨hslToHex hsl.h hsl.s 20, "Dark"⟩,
       ⟨hslToHex hsl.h hsl.s 40, "Medium Dark"⟩,
       ⟨hex, "Base"⟩,
       ⟨hslToHex hsl.h hsl.s 70, "Medium Light"⟩,
       ⟨hslToHex hsl.h hsl.s 90, "Light"⟩] ∧
    generateScheme hex "split-complementary" = some
      [⟨hex, "Base"⟩,
       ⟨hslToHex (wrap360 (hsl.h + 150)) hsl.s hsl.l, "Split 1"⟩,
       ⟨hslToHex (wrap360 (hsl.h + 210)) hsl.s hsl.l, "Split 2"⟩] ∧
    (0 ≤ hsl.h ∧ hsl.h < 360) ∧ (0 ≤ wrap360 x ∧ wrap360 x < 360) := by
  obtain ⟨hh0, hh1⟩ := hexToHsl_hue_range hex hsl hp
  have e180 : jsMod (hsl.h + 180) 360 = wrap360 (hsl.h + 180) :=
    jsMod_eq_wrap360 _ (by linarith)
  have e15 : jsMod (hsl.h + 15) 360 = wrap360 (hsl.h + 15) :=
    jsMod_eq_wrap360 _ (by linarith)
  have e30 : jsMod (hsl.h + 30) 360 = wrap360 (hsl.h + 30) :=
    jsMod_eq_wrap360 _ (by linarith)
  have e120 : jsMod (hsl.h + 120) 360 = wrap360 (hsl.h + 120) :=
    jsMod_eq_wrap360 _ (by linarith)
  have e240 : jsMod (hsl.h + 240) 360 = wrap360 (hsl.h + 240) :=
    jsMod_eq_wrap360 _ (by linarith)
  have e90 : jsMod (hsl.h + 90) 360 = wrap360 (hsl.h + 90) :=
    jsMod_eq_wrap360 _ (by linarith)
  have e270 : jsMod (hsl.h + 270) 360 = wrap360 (hsl.h + 270) :=
    jsMod_eq_wrap360 _ (by linarith)
  have e150 : jsMod (hsl.h + 150) 360 = wrap360 (hsl.h + 150) :=
    jsMod_eq_wrap360 _ (by linarith)
  have e210 : jsMod (hsl.h + 210) 360 = wrap360 (hsl.h + 210) :=
    jsMod_eq_wrap360 _ (by linarith)
  have em30 : jsMod (hsl.h - 30 + 360) 360 = wrap360 (hsl.h - 30) := by
    rw [jsMod_eq_wrap360 _ (by linarith), show hsl.h - 30 + 360 = (hsl.h - 30) + 360 by ring,
        wrap360_add_360]
  have em15 : jsMod (hsl.h - 15 + 360) 360 = wrap360 (hsl.h - 15) := by
    rw [jsMod_eq_wrap360 _ (by linarith), show hsl.h - 15 + 360 = (hsl.h - 15) + 360 by ring,
        wrap360_add_360]
  refine ⟨?_, ?_, ?_, ?_, ?_, ?_, ⟨hh0, hh1⟩, wrap360_mem x⟩ <;>
    simp [generateScheme, hp, e180, e15, e30, e120, e240, e90, e270, e150, e210, em30, em15]

/-- Witness for C3 at pure red, whose HSL is (0, 100, 50). -/
theorem generateScheme_follows_spec_table_witness :
    generateScheme "#ff0000" "complementary" = some
      [⟨"#ff0000", "Base"⟩,
       ⟨hslToHex (wrap360 ((0 : ℚ) + 180)) 100 50, "Complementary"⟩] ∧
    generateScheme "#ff0000" "analogous" = some
      [⟨hslToHex (wrap360 ((0 : ℚ) - 30)) 100 50, "Analogous 1"⟩,
       ⟨hslToHex (wrap360 ((0 : ℚ) - 15)) 100 50, "Analogous 2"⟩,
       ⟨"#ff0000", "Base"⟩,
       ⟨hslToHex (wrap360 ((0 : ℚ) + 15)) 100 50, "Analogous 3"⟩,
       ⟨hslToHex (wrap360 ((0 : ℚ) + 30)) 100 50, "Analogous 4"⟩] ∧
    generateScheme "#ff0000" "triadic" = some
      [⟨"#ff0000", "Primary"⟩,
       ⟨hslToHex (wrap360 ((0 : ℚ) + 120)) 100 50, "Secondary"⟩,
       ⟨hslToHex (wrap360 ((0 : ℚ) + 240)) 100 50, "Tertiary"⟩] ∧
    generateScheme "#ff0000" "tetradic" = some
      [⟨"#ff0000", "Primary"⟩,
       ⟨hslToHex (wrap360 ((0 : ℚ) + 90)) 100 50, "Secondary"⟩,
       ⟨hslToHex (wrap360 ((0 : ℚ) + 180)) 100 50, "Tertiary"⟩,
       ⟨hslToHex (wrap360 ((0 : ℚ) + 270)) 100 50, "Quaternary"⟩] ∧
    generateScheme "#ff0000" "monochromatic" = some
      [⟨hslToHex 0 100 20, "Dark"⟩,
       ⟨hslToHex 0 100 40, "Medium Dark"⟩,
       ⟨"#ff0000", "Base"⟩,
       ⟨hslToHex 0 100 70, "Medium Light"⟩,
       ⟨hslToHex 0 100 90, "Light"⟩] ∧
    generateScheme "#ff0000" "split-complementary" = some
      [⟨"#ff0000", "Base"⟩,
       ⟨hslToHex (wrap360 ((0 : ℚ) + 150)) 100 50, "Split 1"⟩,
       ⟨hslToHex (wrap360 ((0 : ℚ) + 210)) 100 50, "Split 2"⟩] ∧
    ((0 : ℚ) ≤ 0 ∧ (0 : ℚ) < 360) ∧ (0 ≤ wrap360 180 ∧ wrap360 180 < 360) :=
  generateScheme_follows_spec_table "#ff0000" ⟨0, 100, 50⟩ 180 (by decide)

/-- C4: on an image whose sampled pixels are all transparent (alpha below
128) the color map stays empty, `sortedColors[0]` is `undefined`, and the
code throws a `TypeError` instead of returning a typed empty-palette
result.  Evaluated here at a single fully transparent pixel. -/
theorem extract_transparent_typeError :
    extractColors [0, 0, 0, 0] = .error .typeError := by decide

/-- C5 counterexample: an unrecognized scheme kind does not fail with a
typed `UnsupportedSchemeKind` error — the switch has no default, so the
call returns normally with an empty scheme list. -/
theorem generateScheme_unknown_kind_counterexample :
    generateScheme "#000000" "brightness" = some [] := by decide

/-- C5 amended: for every parsable base color and every kind outside the
six recognized ones, `generateScheme` returns the empty scheme list (no
typed error exists in the code). -/
theorem generateScheme_unknown_kind_empty (hex kind : String) (hsl : HSL)
    (hp : hexToHsl hex = some hsl)
    (hk : kind ∉ ["complementary", "analogous", "triadic", "tetradic",
                  "monochromatic", "split-complementary"]) :
    generateScheme hex kind = some [] := by
  simp only [List.mem_cons, List.not_mem_nil, or_false, not_or] at hk
  obtain ⟨h1, h2, h3, h4, h5, h6⟩ := hk
  simp [generateScheme, hp, h1, h2, h3, h4, h5, h6]

/-- Witness for the amended C5 at a concrete unknown kind. -/
theorem generateScheme_unknown_kind_empty_witness :
    generateScheme "#000000" "bogus" = some [] :=
  generateScheme_unknown_kind_empty "#000000" "bogus" ⟨0, 0, 0⟩ (by decide) (by decide)

theorem natHexCharsAux_small (fuel n : ℕ) (hf : 1 ≤ fuel) (hn : n < 16) :
    natHexCharsAux fuel n = [hexDigitChar n] := by
  obtain ⟨f, rfl⟩ : ∃ f, fuel = f + 1 := ⟨fuel - 1, by omega⟩
  simp [natHexCharsAux, hn]

theorem natHexChars_one (n : ℕ) (h : n < 16) : natHexChars n = [hexDigitChar n] :=
  natHexCharsAux_small _ _ (by omega) h

theorem natHexChars_two (n : ℕ) (h1 : 16 ≤ n) (h2 : n ≤ 255) :
    natHexChars n = [hexDigitChar (n / 16), hexDigitChar (n % 16)] := by
  unfold natHexChars
  obtain ⟨m, rfl⟩ : ∃ m, n = m + 1 := ⟨n - 1, by omega⟩
  show natHexCharsAux (m + 1 + 1) (m + 1) = _
  rw [show natHexCharsAux (m + 1 + 1) (m + 1) =
      if m + 1 < 16 then [hexDigitChar (m + 1)]
      else natHexCharsAux (m + 1) ((m + 1) / 16) ++ [hexDigitChar ((m + 1) % 16)] from rfl,
    if_neg (by omega), natHexCharsAux_small _ _ (by omega) (by omega)]
  rfl

theorem pad2_len2 (n : ℕ) (h : n ≤ 255) : (pad2 (natHexChars n)).length = 2 := by
  by_cases h16 : n < 16
  · rw [natHexChars_one n h16]
    rfl
  · rw [natHexChars_two n (by omega) h, pad2]
    simp

/-- C10: quantizing any channel value in [248, 255] yields the bucket
value 256, which is outside [0, 255]; `rgbToHex` renders it as the
unpadded three-character digit string `100`, so the resulting hex string
has more than 7 characters and no longer matches the 6-hex-digit color
pattern. -/
theorem quantize_overflow_hex (v g b : ℕ) (h1 : 248 ≤ v) (h2 : v ≤ 255)
    (hg : g ≤ 255) (hb : b ≤ 255) :
    quantize v = 256 ∧ 255 < quantize v ∧
    pad2 (natHexChars (quantize v)) = ['1', '0', '0'] ∧
    7 < (rgbToHex (quantize v) g b).length ∧
    matchesHex6 (rgbToHex (quantize v) g b) = false := by
  have hq : quantize v = 256 := by interval_cases v <;> decide
  have hpad : pad2 (natHexChars 256) = ['1', '0', '0'] := by decide
  refine ⟨hq, by rw [hq]; norm_num, by rw [hq]; exact hpad, ?_, ?_⟩
  · rw [hq]
    show 7 < (String.mk ('#' :: (pad2 (natHexChars 256) ++ pad2 (natHexChars g) ++
        pad2 (natHexChars b)))).length
    have hl : (String.mk ('#' :: (pad2 (natHexChars 256) ++ pad2 (natHexChars g) ++
        pad2 (natHexChars b)))).length =
        ('#' :: (pad2 (natHexChars 256) ++ pad2 (natHexChars g) ++
        pad2 (natHexChars b))).length := rfl
    rw [hl]
    simp [hpad, List.length_append, pad2_len2 g hg, pad2_len2 b hb]
  · rw [hq]
    show matchesHex6 (String.mk ('#' :: (pad2 (natHexChars 256) ++ pad2 (natHexChars g) ++
        pad2 (natHexChars b)))) = false
    unfold matchesHex6
    have htl : (String.mk ('#' :: (pad2 (natHexChars 256) ++ pad2 (natHexChars g) ++
        pad2 (natHexChars b)))).toList =
        '#' :: (pad2 (natHexChars 256) ++ pad2 (natHexChars g) ++
        pad2 (natHexChars b)) := rfl
    rw [htl]
    simp [hpad, List.length_append, pad2_len2 g hg, pad2_len2 b hb]

/-- Witness for C10 at channel value 250 with black remaining channels. -/
theorem quantize_overflow_hex_witness :
    quantize 250 = 256 ∧ 255 < quantize 250 ∧
    pad2 (natHexChars (quantize 250)) = ['1', '0', '0'] ∧
    7 < (rgbToHex (quantize 250) 0 0).length ∧
    matchesHex6 (rgbToHex (quantize 250) 0 0) = false :=
  quantize_overflow_hex 250 0 0 (by norm_num) (by norm_num) (by norm_num) (by norm_num)

theorem hexVal_lt16 (c : Char) (h : isHexDigitChar c = true) : hexVal c < 16 := by
  unfold isHexDigitChar at h
  simp only [Bool.or_eq_true, decide_eq_true_eq, or_assoc] at h
  rcases h with rfl | rfl | rfl | rfl | rfl | rfl | rfl | rfl | rfl | rfl | rfl | rfl |
    rfl | rfl | rfl | rfl | rfl | rfl | rfl | rfl | rfl | rfl <;> decide

theorem lowerHex_imp_hex (c : Char) (h : isLowerHexDigit c = true) :
    isHexDigitChar c = true := by
  unfold isLowerHexDigit at h
  simp only [Bool.or_eq_true, decide_eq_true_eq, or_assoc] at h
  rcases h with rfl | rfl | rfl | rfl | rfl | rfl | rfl | rfl | rfl | rfl | rfl | rfl |
    rfl | rfl | rfl | rfl <;> decide

theorem hexDigitChar_hexVal (c : Char) (h : isLowerHexDigit c = true) :
    hexDigitChar (hexVal c) = c := by
  unfold isLowerHexDigit at h
  simp only [Bool.or_eq_true, decide_eq_true_eq, or_assoc] at h
  rcases h with rfl | rfl | rfl | rfl | rfl | rfl | rfl | rfl | rfl | rfl | rfl | rfl |
    rfl | rfl | rfl | rfl <;> decide

theorem jsParseHex_pair (c1 c2 : Char) (h1 : isHexDigitChar c1 = true)
    (h2 : isHexDigitChar c2 = true) :
    jsParseHex [c1, c2] = some (16 * hexVal c1 + hexVal c2) := by
  unfold jsParseHex
  simp [List.takeWhile_cons, h1, h2, List.foldl]

/-- Shared helper: the slice-based parser on a hash followed by six hex
digits yields the pairwise channel values. -/
theorem hexChannels_hash (c1 c2 c3 c4 c5 c6 : Char)
    (h1 : isHexDigitChar c1 = true) (h2 : isHexDigitChar c2 = true)
    (h3 : isHexDigitChar c3 = true) (h4 : isHexDigitChar c4 = true)
    (h5 : isHexDigitChar c5 = true) (h6 : isHexDigitChar c6 = true) :
    hexChannels (String.mk ['#', c1, c2, c3, c4, c5, c6]) =
      some ⟨16 * hexVal c1 + hexVal c2, 16 * hexVal c3 + hexVal c4,
            16 * hexVal c5 + hexVal c6⟩ := by
  unfold hexChannels
  have s13 : strSlice (String.mk ['#', c1, c2, c3, c4, c5, c6]) 1 3 = [c1, c2] := rfl
  have s35 : strSlice (String.mk ['#', c1, c2, c3, c4, c5, c6]) 3 5 = [c3, c4] := rfl
  have s57 : strSlice (String.mk ['#', c1, c2, c3, c4, c5, c6]) 5 7 = [c5, c6] := rfl
  rw [s13, s35, s57, jsParseHex_pair c1 c2 h1 h2, jsParseHex_pair c3 c4 h3 h4,
    jsParseHex_pair c5 c6 h5 h6]

/-- C6 counterexample: `"ff0000"` matches the 6-hex-digit pattern (no
hash), yet the parser neither fails with a typed `InvalidFormat` nor
returns the corresponding color (255, 0, 0); it blindly slices at the
hash-offset positions and returns (240, 0, 0). -/
theorem hexParse_counterexample :
    matchesHex6 "ff0000" = true ∧
    hexChannels "ff0000" = some ⟨240, 0, 0⟩ ∧
    (⟨240, 0, 0⟩ : Color) ≠ ⟨255, 0, 0⟩ := by decide

/-- C6 amended: the parser has no typed failure; it assumes a leading
hash, and for every hash-prefixed 6-hex-digit string it returns the
corresponding Color (for other inputs it mis-slices or NaN-poisons, never
raising an `InvalidFormat`). -/
theorem hexChannels_valid_hash_parse (c1 c2 c3 c4 c5 c6 : Char)
    (h1 : isHexDigitChar c1 = true) (h2 : isHexDigitChar c2 = true)
    (h3 : isHexDigitChar c3 = true) (h4 : isHexDigitChar c4 = true)
    (h5 : isHexDigitChar c5 = true) (h6 : isHexDigitChar c6 = true) :
    hexChannels (String.mk ['#', c1, c2, c3, c4, c5, c6]) =
      some ⟨16 * hexVal c1 + hexVal c2, 16 * hexVal c3 + hexVal c4,
            16 * hexVal c5 + hexVal c6⟩ :=
  hexChannels_hash c1 c2 c3 c4 c5 c6 h1 h2 h3 h4 h5 h6

/-- Witness for the amended C6 at the concrete string hash-ff0000. -/
theorem hexChannels_valid_hash_parse_witness :
    hexChannels (String.mk ['#', 'f', 'f', '0', '0', '0', '0']) =
      some ⟨16 * hexVal 'f' + hexVal 'f', 16 * hexVal '0' + hexVal '0',
            16 * hexVal '0' + hexVal '0'⟩ :=
  hexChannels_valid_hash_parse 'f' 'f' '0' '0' '0' '0'
    (by decide) (by decide) (by decide) (by decide) (by decide) (by decide)

theorem pad2_digits (a b : ℕ) (ha : a < 16) (hb : b < 16) :
    pad2 (natHexChars (16 * a + b)) = [hexDigitChar a, hexDigitChar b] := by
  by_cases h0 : a = 0
  · subst h0
    rw [show 16 * 0 + b = b by omega, natHexChars_one b hb]
    rfl
  · have h16 : 16 ≤ 16 * a + b := by omega
    have h255 : 16 * a + b ≤ 255 := by omega
    rw [natHexChars_two _ h16 h255, show (16 * a + b) / 16 = a by omega,
      show (16 * a + b) % 16 = b by omega]
    rfl

/-- C7 counterexample: `"#FF0000"` is a valid (uppercase) 6-hex-digit
string, but parsing and re-rendering yields the lowercase `"#ff0000"`,
which is not equal to the input, so the round trip is not the exact
identity on uppercase inputs. -/
theorem roundtrip_uppercase_counterexample :
    matchesHex6 "#FF0000" = true ∧
    hexChannels "#FF0000" = some ⟨255, 0, 0⟩ ∧
    rgbToHex 255 0 0 = "#ff0000" ∧
    ("#ff0000" : String) ≠ "#FF0000" := by decide

/-- C7 amended: for every hash-prefixed lowercase 6-hex-digit string,
parsing to RGB channels and rendering back with `rgbToHex` reproduces the
string exactly (no rounding is involved). -/
theorem hex_roundtrip_lowercase (c1 c2 c3 c4 c5 c6 : Char)
    (h1 : isLowerHexDigit c1 = true) (h2 : isLowerHexDigit c2 = true)
    (h3 : isLowerHexDigit c3 = true) (h4 : isLowerHexDigit c4 = true)
    (h5 : isLowerHexDigit c5 = true) (h6 : isLowerHexDigit c6 = true) :
    hexChannels (String.mk ['#', c1, c2, c3, c4, c5, c6]) =
      some ⟨16 * hexVal c1 + hexVal c2, 16 * hexVal c3 + hexVal c4,
            16 * hexVal c5 + hexVal c6⟩ ∧
    rgbToHex (16 * hexVal c1 + hexVal c2) (16 * hexVal c3 + hexVal c4)
      (16 * hexVal c5 + hexVal c6) = String.mk ['#', c1, c2, c3, c4, c5, c6] := by
  refine ⟨hexChannels_hash c1 c2 c3 c4 c5 c6 (lowerHex_imp_hex c1 h1)
    (lowerHex_imp_hex c2 h2) (lowerHex_imp_hex c3 h3) (lowerHex_imp_hex c4 h4)
    (lowerHex_imp_hex c5 h5) (lowerHex_imp_hex c6 h6), ?_⟩
  unfold rgbToHex
  rw [pad2_digits _ _ (hexVal_lt16 c1 (lowerHex_imp_hex c1 h1))
        (hexVal_lt16 c2 (lowerHex_imp_hex c2 h2)),
      pad2_digits _ _ (hexVal_lt16 c3 (lowerHex_imp_hex c3 h3))
        (hexVal_lt16 c4 (lowerHex_imp_hex c4 h4)),
      pad2_digits _ _ (hexVal_lt16 c5 (lowerHex_imp_hex c5 h5))
        (hexVal_lt16 c6 (lowerHex_imp_hex c6 h6)),
      hexDigitChar_hexVal c1 h1, hexDigitChar_hexVal c2 h2, hexDigitChar_hexVal c3 h3,
      hexDigitChar_hexVal c4 h4, hexDigitChar_hexVal c5 h5, hexDigitChar_hexVal c6 h6]
  rfl

/-- Witness for the amended C7 at the lowercase string hash-abcdef. -/
theorem hex_roundtrip_lowercase_witness :
    hexChannels (String.mk ['#', 'a', 'b', 'c', 'd', 'e', 'f']) =
      some ⟨16 * hexVal 'a' + hexVal 'b', 16 * hexVal 'c' + hexVal 'd',
            16 * hexVal 'e' + hexVal 'f'⟩ ∧
    rgbToHex (16 * hexVal 'a' + hexVal 'b') (16 * hexVal 'c' + hexVal 'd')
      (16 * hexVal 'e' + hexVal 'f') = String.mk ['#', 'a', 'b', 'c', 'd', 'e', 'f'] :=
  hex_roundtrip_lowercase 'a' 'b' 'c' 'd' 'e' 'f'
    (by decide) (by decide) (by decide) (by decide) (by decide) (by decide)

theorem mem_insertDesc {x e : (ℕ × ℕ × ℕ) × ℕ} {l : List ((ℕ × ℕ × ℕ) × ℕ)}
    (h : e ∈ insertDesc x l) : e = x ∨ e ∈ l := by
  induction l with
  | nil => simpa [insertDesc] using h
  | cons y ys ih =>
      unfold insertDesc at h
      split_ifs at h with hc
      · rcases List.mem_cons.1 h with h | h
        · exact Or.inr (List.mem_cons.2 (Or.inl h))
        · rcases ih h with h | h
          · exact Or.inl h
          · exact Or.inr (List.mem_cons.2 (Or.inr h))
      · rcases List.mem_cons.1 h with h | h
        · exact Or.inl h
        · exact Or.inr h

theorem pairwise_insertDesc (x : (ℕ × ℕ × ℕ) × ℕ) (l : List ((ℕ × ℕ × ℕ) × ℕ))
    (h : l.Pairwise (fun a b => b.2 ≤ a.2)) :
    (insertDesc x l).Pairwise (fun a b => b.2 ≤ a.2) := by
  induction l with
  | nil => simp [insertDesc]
  | cons y ys ih =>
      unfold insertDesc
      rcases List.pairwise_cons.1 h with ⟨hy, hys⟩
      split_ifs with hc
      · refine List.pairwise_cons.2 ⟨?_, ih hys⟩
        intro z hz
        rcases mem_insertDesc hz with rfl | hz
        · exact le_of_lt hc
        · exact hy z hz
      · refine List.pairwise_cons.2 ⟨?_, h⟩
        intro z hz
        rcases List.mem_cons.1 hz with rfl | hz
        · exact not_lt.1 hc
        · exact le_trans (hy z hz) (not_lt.1 hc)

theorem sortColors_pairwise (l : List ((ℕ × ℕ × ℕ) × ℕ)) :
    (sortColors l).Pairwise (fun a b => b.2 ≤ a.2) := by
  induction l with
  | nil => simp [sortColors]
  | cons x xs ih => exact pairwise_insertDesc x _ ih

theorem filter_insertDesc (c : ℕ) (x : (ℕ × ℕ × ℕ) × ℕ) (l : List ((ℕ × ℕ × ℕ) × ℕ)) :
    (insertDesc x l).filter (fun e => e.2 == c) =
      if x.2 == c then x :: l.filter (fun e => e.2 == c)
      else l.filter (fun e => e.2 == c) := by
  induction l with
  | nil =>
      by_cases hx : (x.2 == c) = true <;> simp [insertDesc, List.filter, hx]
  | cons y ys ih =>
      by_cases hc : x.2 < y.2
      · rw [show insertDesc x (y :: ys) = y :: insertDesc x ys from by
          simp only [insertDesc]; rw [if_pos hc]]
        rw [List.filter_cons, ih]
        by_cases hx : (x.2 == c) = true
        · have hy : (y.2 == c) = false := by
            rw [beq_iff_eq] at hx
            rw [beq_eq_false_iff_ne]
            omega
          simp [hx, hy, List.filter_cons]
        · simp only [Bool.not_eq_true] at hx
          simp [hx, List.filter_cons]
      · rw [show insertDesc x (y :: ys) = x :: y :: ys from by
          simp only [insertDesc]; rw [if_neg hc]]
        rw [List.filter_cons]

theorem sortColors_filter (c : ℕ) (l : List ((ℕ × ℕ × ℕ) × ℕ)) :
    (sortColors l).filter (fun e => e.2 == c) = l.filter (fun e => e.2 == c) := by
  induction l with
  | nil => rfl
  | cons x xs ih =>
      show (insertDesc x (sortColors xs)).filter (fun e => e.2 == c) = _
      rw [filter_insertDesc, ih, List.filter_cons]

/-- C9 amended: the extracted bucket list is sorted by descending count,
and buckets of any fixed count appear in their first-insertion order (the
order in which the keys first occurred during the left-to-right pass) —
expressed by the filter-per-count characterization of stability.  The
claim's gloss that ties order by the earliest key to reach the tied count
is refuted separately. -/
theorem palette_sorted_stable (data : List ℕ) :
    (sortColors (buildMap data)).Pairwise (fun a b => b.2 ≤ a.2) ∧
    ∀ c : ℕ, (sortColors (buildMap data)).filter (fun e => e.2 == c) =
      (buildMap data).filter (fun e => e.2 == c) :=
  ⟨sortColors_pairwise _, fun c => sortColors_filter c _⟩

/-- C9 counterexample: on `tieImage` the sampled qualifying buckets are
black, gray, gray, black, so both buckets end at count 2 and gray reaches
count 2 at pass index 2 while black only reaches it at index 3; the
claim's tie rule would list gray first, but the code lists black first
(first-insertion order). -/
theorem palette_tie_counterexample :
    extractColors tieImage = .ok
      { dominant := "#000000",
        topColors := [⟨"#000000", "rgb(0, 0, 0)"⟩, ⟨"#202020", "rgb(32, 32, 32)"⟩] } ∧
    firstReach (qualifyKeys tieImage) (32, 32, 32) 2 = some 2 ∧
    firstReach (qualifyKeys tieImage) (0, 0, 0) 2 = some 3 ∧
    (2 : ℕ) < 3 := by decide

theorem jsMod_small (a b : ℚ) (hb : 0 < b) (h0 : 0 ≤ a) (h1 : a < b) :
    jsMod a b = a := by
  unfold jsMod
  rw [if_neg (not_lt.2 h0)]
  have hz : ⌊a / b⌋ = 0 :=
    Int.floor_eq_zero_iff.2 ⟨div_nonneg h0 hb.le, (div_lt_one hb).2 h1⟩
  rw [hz]
  push_cast
  ring

theorem jsMod_shift (a b : ℚ) (hb : 0 < b) (h0 : b ≤ a) (h1 : a < 2 * b) :
    jsMod a b = a - b := by
  unfold jsMod
  rw [if_neg (not_lt.2 (le_trans hb.le h0))]
  have hz : ⌊a / b⌋ = 1 := by
    rw [Int.floor_eq_iff]
    constructor
    · push_cast
      rw [le_div_iff₀ hb]
      linarith
    · push_cast
      rw [div_lt_iff₀ hb]
      linarith
  rw [hz]
  push_cast
  ring

theorem clampQ_left (k : ℚ) (h : k ≤ 2) : clampQ k = -1 := by
  unfold clampQ
  rw [min_eq_left (by linarith : k - 3 ≤ 9 - k), min_eq_left (by linarith : k - 3 ≤ 1),
    max_eq_right (by linarith : k - 3 ≤ -1)]

theorem clampQ_rise (k : ℚ) (h2 : 2 ≤ k) (h4 : k ≤ 4) : clampQ k = k - 3 := by
  unfold clampQ
  rw [min_eq_left (by linarith : k - 3 ≤ 9 - k), min_eq_left (by linarith : k - 3 ≤ 1),
    max_eq_left (by linarith : (-1 : ℚ) ≤ k - 3)]

theorem clampQ_top (k : ℚ) (h4 : 4 ≤ k) (h8 : k ≤ 8) : clampQ k = 1 := by
  unfold clampQ
  rcases le_total (k - 3) (9 - k) with hk | hk
  · rw [min_eq_left hk, min_eq_right (by linarith : (1 : ℚ) ≤ k - 3),
      max_eq_left (by norm_num : (-1 : ℚ) ≤ 1)]
  · rw [min_eq_right hk, min_eq_right (by linarith : (1 : ℚ) ≤ 9 - k),
      max_eq_left (by norm_num : (-1 : ℚ) ≤ 1)]

theorem clampQ_fall (k : ℚ) (h8 : 8 ≤ k) (h10 : k ≤ 10) : clampQ k = 9 - k := by
  unfold clampQ
  rw [min_eq_right (by linarith : 9 - k ≤ k - 3), min_eq_left (by linarith : 9 - k ≤ 1),
    max_eq_left (by linarith : (-1 : ℚ) ≤ 9 - k)]

theorem clampQ_right (k : ℚ) (h : 10 ≤ k) : clampQ k = -1 := by
  unfold clampQ
  rw [min_eq_right (by linarith : 9 - k ≤ k - 3), min_eq_left (by linarith : 9 - k ≤ 1),
    max_eq_right (by linarith : 9 - k ≤ -1)]

theorem sat_times_min (M m : ℚ) (h0 : 0 ≤ m) (h1 : M ≤ 1) (hlt : m < M) :
    (if (M + m) / 2 > 1 / 2 then (M - m) / (2 - M - m) else (M - m) / (M + m)) *
      min ((M + m) / 2) (1 - (M + m) / 2) = (M - m) / 2 := by
  split_ifs with hl
  · have hne : 2 - M - m ≠ 0 := by
      intro hc
      linarith
    rw [min_eq_right (by linarith : 1 - (M + m) / 2 ≤ (M + m) / 2)]
    field_simp
    ring
  · have hne : M + m ≠ 0 := by
      intro hc
      linarith
    rw [min_eq_left (by linarith [not_lt.1 hl] : (M + m) / 2 ≤ 1 - (M + m) / 2)]
    field_simp

theorem clampMod_0_2 (A : ℚ) (h0 : 0 ≤ A) (h1 : A ≤ 2) :
    clampQ (jsMod A 12) = -1 := by
  rw [jsMod_small A 12 (by norm_num) h0 (by linarith), clampQ_left A h1]

theorem clampMod_2_4 (A : ℚ) (h0 : 2 ≤ A) (h1 : A ≤ 4) :
    clampQ (jsMod A 12) = A - 3 := by
  rw [jsMod_small A 12 (by norm_num) (by linarith) (by linarith), clampQ_rise A h0 h1]

theorem clampMod_4_8 (A : ℚ) (h0 : 4 ≤ A) (h1 : A ≤ 8) :
    clampQ (jsMod A 12) = 1 := by
  rw [jsMod_small A 12 (by norm_num) (by linarith) (by linarith), clampQ_top A h0 h1]

theorem clampMod_8_10 (A : ℚ) (h0 : 8 ≤ A) (h1 : A ≤ 10) :
    clampQ (jsMod A 12) = 9 - A := by
  rw [jsMod_small A 12 (by norm_num) (by linarith) (by linarith), clampQ_fall A h0 h1]

theorem clampMod_10_12 (A : ℚ) (h0 : 10 ≤ A) (h1 : A < 12) :
    clampQ (jsMod A 12) = -1 := by
  rw [jsMod_small A 12 (by norm_num) (by linarith) h1, clampQ_right A h0]

theorem clampMod_12_14 (A : ℚ) (h0 : 12 ≤ A) (h1 : A ≤ 14) :
    clampQ (jsMod A 12) = -1 := by
  rw [jsMod_shift A 12 (by norm_num) h0 (by linarith), clampQ_left (A - 12) (by linarith)]

theorem clampMod_14_16 (A : ℚ) (h0 : 14 ≤ A) (h1 : A ≤ 16) :
    clampQ (jsMod A 12) = A - 15 := by
  rw [jsMod_shift A 12 (by norm_num) (by linarith) (by linarith),
    clampQ_rise (A - 12) (by linarith) (by linarith)]
  ring

theorem clampMod_16_20 (A : ℚ) (h0 : 16 ≤ A) (h1 : A ≤ 20) :
    clampQ (jsMod A 12) = 1 := by
  rw [jsMod_shift A 12 (by norm_num) (by linarith) (by linarith),
    clampQ_top (A - 12) (by linarith) (by linarith)]

/-- Shared helper: in exact rational arithmetic the alternative-formula
HSL-to-RGB conversion of `hslToHex` inverts `hexToHsl`'s RGB-to-HSL
conversion exactly, channel by channel, on `[0, 1]` channel values. -/
theorem hslColorVal_inv (r g b : ℚ)
    (hr0 : 0 ≤ r) (hr1 : r ≤ 1) (hg0 : 0 ≤ g) (hg1 : g ≤ 1) (hb0 : 0 ≤ b) (hb1 : b ≤ 1) :
    hslColorVal (rgbToHslQ r g b).h (rgbToHslQ r g b).s (rgbToHslQ r g b).l 0 = r ∧
    hslColorVal (rgbToHslQ r g b).h (rgbToHslQ r g b).s (rgbToHslQ r g b).l 8 = g ∧
    hslColorVal (rgbToHslQ r g b).h (rgbToHslQ r g b).s (rgbToHslQ r g b).l 4 = b := by
  simp only [hslColorVal, rgbToHslQ]
  set M := max r (max g b) with hM
  set m := min r (min g b) with hm
  have hrM : r ≤ M := by rw [hM]; exact le_max_left _ _
  have hgM : g ≤ M := by rw [hM]; exact le_trans (le_max_left g b) (le_max_right r _)
  have hbM : b ≤ M := by rw [hM]; exact le_trans (le_max_right g b) (le_max_right r _)
  have hmr : m ≤ r := by rw [hm]; exact min_le_left _ _
  have hmg : m ≤ g := by rw [hm]; exact le_trans (min_le_right r _) (min_le_left g b)
  have hmb : m ≤ b := by rw [hm]; exact le_trans (min_le_right r _) (min_le_right g b)
  have hm0 : 0 ≤ m := by rw [hm]; exact le_min hr0 (le_min hg0 hb0)
  have hM1 : M ≤ 1 := by rw [hM]; exact max_le hr1 (max_le hg1 hb1)
  have c100 : ∀ q : ℚ, q * 100 / 100 = q := fun q => by field_simp
  have c360 : ∀ q : ℚ, q * 360 / 30 = 12 * q := fun q => by ring
  by_cases he : M = m
  · rw [if_pos he]
    dsimp only
    simp only [c100]
    have hrm : r = m := le_antisymm (he ▸ hrM) hmr
    have hgm : g = m := le_antisymm (he ▸ hgM) hmg
    have hbm : b = m := le_antisymm (he ▸ hbM) hmb
    norm_num
    refine ⟨by linarith, by linarith, by linarith⟩
  · rw [if_neg he]
    dsimp only
    simp only [c100, c360]
    have hlt : m < M := lt_of_le_of_ne (le_trans hmr hrM) fun hh => he hh.symm
    have hd : (0 : ℚ) < M - m := by linarith
    have hne : M - m ≠ 0 := ne_of_gt hd
    rw [sat_times_min M m hm0 hM1 hlt]
    by_cases hMr : M = r
    · rw [if_pos hMr]
      by_cases hgb : g < b
      · -- max is r, g < b : hue in [5/6, 1), m = g
        rw [if_pos hgb]
        set X := (g - b) / (M - m) with hX
        have key : X * (M - m) = g - b := by rw [hX]; exact div_mul_cancel₀ _ hne
        have hX2 : (-1 : ℚ) ≤ X := by
          rw [hX, le_div_iff₀ hd]
          linarith
        have hX0 : X < 0 := by
          rw [hX]
          exact div_neg_of_neg_of_pos (by linarith) hd
        have hm' : m = g := by
          rw [hm, min_eq_left hgb.le, min_eq_right (le_trans hgM (le_of_eq hMr))]
        refine ⟨?_, ?_, ?_⟩
        · rw [show (0 : ℚ) + 12 * ((X + 6) / 6) = 2 * X + 12 from by ring,
            clampMod_10_12 (2 * X + 12) (by linarith) (by linarith)]
          linarith [hMr]
        · rw [show (8 : ℚ) + 12 * ((X + 6) / 6) = 2 * X + 20 from by ring,
            clampMod_16_20 (2 * X + 20) (by linarith) (by linarith)]
          linarith [hm']
        · rw [show (4 : ℚ) + 12 * ((X + 6) / 6) = 2 * X + 16 from by ring,
            clampMod_14_16 (2 * X + 16) (by linarith) (by linarith)]
          linear_combination hm' - key
      · -- max is r, b ≤ g : hue in [0, 1/6], m = b
        rw [if_neg hgb]
        set X := (g - b) / (M - m) with hX
        have key : X * (M - m) = g - b := by rw [hX]; exact div_mul_cancel₀ _ hne
        have hX1 : X ≤ 1 := by
          rw [hX, div_le_one hd]
          linarith
        have hX0 : 0 ≤ X := by
          rw [hX]
          exact div_nonneg (by linarith [not_lt.1 hgb]) hd.le
        have hm' : m = b := by
          rw [hm, min_eq_right (not_lt.1 hgb), min_eq_right (le_trans hbM (le_of_eq hMr))]
        refine ⟨?_, ?_, ?_⟩
        · rw [show (0 : ℚ) + 12 * ((X + 0) / 6) = 2 * X from by ring,
            clampMod_0_2 (2 * X) (by linarith) (by linarith)]
          linarith [hMr]
        · rw [show (8 : ℚ) + 12 * ((X + 0) / 6) = 2 * X + 8 from by ring,
            clampMod_8_10 (2 * X + 8) (by linarith) (by linarith)]
          linear_combination hm' + key
        · rw [show (4 : ℚ) + 12 * ((X + 0) / 6) = 2 * X + 4 from by ring,
            clampMod_4_8 (2 * X + 4) (by linarith) (by linarith)]
          linarith [hm']
    · rw [if_neg hMr]
      by_cases hMg : M = g
      · rw [if_pos hMg]
        set Y := (b - r) / (M - m) with hY
        have key : Y * (M - m) = b - r := by rw [hY]; exact div_mul_cancel₀ _ hne
        have hY1 : Y ≤ 1 := by
          rw [hY, div_le_one hd]
          linarith
        have hY2 : (-1 : ℚ) ≤ Y := by
          rw [hY, le_div_iff₀ hd]
          linarith
        have hbg : b ≤ g := le_trans hbM (le_of_eq hMg)
        rcases lt_or_le b r with hbr | hrb
        · -- max is g, b < r : Y < 0, m = b
          have hY0 : Y < 0 := by
            rw [hY]
            exact div_neg_of_neg_of_pos (by linarith) hd
          have hm' : m = b := by
            rw [hm, min_eq_right hbg, min_eq_right hbr.le]
          refine ⟨?_, ?_, ?_⟩
          · rw [show (0 : ℚ) + 12 * ((Y + 2) / 6) = 2 * Y + 4 from by ring,
              clampMod_2_4 (2 * Y + 4) (by linarith) (by linarith)]
            linear_combination hm' - key
          · rw [show (8 : ℚ) + 12 * ((Y + 2) / 6) = 2 * Y + 12 from by ring,
              clampMod_10_12 (2 * Y + 12) (by linarith) (by linarith)]
            linarith [hMg]
          · rw [show (4 : ℚ) + 12 * ((Y + 2) / 6) = 2 * Y + 8 from by ring,
              clampMod_4_8 (2 * Y + 8) (by linarith) (by linarith)]
            linarith [hm']
        · -- max is g, r ≤ b : Y ≥ 0, m = r
          have hY0 : 0 ≤ Y := by
            rw [hY]
            exact div_nonneg (by linarith) hd.le
          have hm' : m = r := by
            rw [hm, min_eq_right hbg, min_eq_left hrb]
          refine ⟨?_, ?_, ?_⟩
          · rw [show (0 : ℚ) + 12 * ((Y + 2) / 6) = 2 * Y + 4 from by ring,
              clampMod_4_8 (2 * Y + 4) (by linarith) (by linarith)]
            linarith [hm']
          · rw [show (8 : ℚ) + 12 * ((Y + 2) / 6) = 2 * Y + 12 from by ring,
              clampMod_12_14 (2 * Y + 12) (by linarith) (by linarith)]
            linarith [hMg]
          · rw [show (4 : ℚ) + 12 * ((Y + 2) / 6) = 2 * Y + 8 from by ring,
              clampMod_8_10 (2 * Y + 8) (by linarith) (by linarith)]
            linear_combination hm' + key
      · -- max is b
        rw [if_neg hMg]
        have hMb : M = b := by
          rw [hM]
          rcases max_choice r (max g b) with hc | hc
          · exact absurd (hM ▸ hc : M = r) hMr
          · rw [hc]
            rcases max_choice g b with hc2 | hc2
            · exact absurd (by rw [hM, hc, hc2] : M = g) hMg
            · exact hc2
        set Z := (r - g) / (M - m) with hZ
        have key : Z * (M - m) = r - g := by rw [hZ]; exact div_mul_cancel₀ _ hne
        have hZ1 : Z ≤ 1 := by
          rw [hZ, div_le_one hd]
          linarith
        have hZ2 : (-1 : ℚ) ≤ Z := by
          rw [hZ, le_div_iff₀ hd]
          linarith
        have hgb' : g ≤ b := le_trans hgM (le_of_eq hMb)
        rcases lt_or_le r g with hrg | hgr
        · -- max is b, r < g : Z < 0, m = r
          have hZ0 : Z < 0 := by
            rw [hZ]
            exact div_neg_of_neg_of_pos (by linarith) hd
          have hm' : m = r := by
            rw [hm, min_eq_left hgb', min_eq_left hrg.le]
          refine ⟨?_, ?_, ?_⟩
          · rw [show (0 : ℚ) + 12 * ((Z + 4) / 6) = 2 * Z + 8 from by ring,
              clampMod_4_8 (2 * Z + 8) (by linarith) (by linarith)]
            linarith [hm']
          · rw [show (8 : ℚ) + 12 * ((Z + 4) / 6) = 2 * Z + 16 from by ring,
              clampMod_14_16 (2 * Z + 16) (by linarith) (by linarith)]
            linear_combination hm' - key
          · rw [show (4 : ℚ) + 12 * ((Z + 4) / 6) = 2 * Z + 12 from by ring,
              clampMod_10_12 (2 * Z + 12) (by linarith) (by linarith)]
            linarith [hMb]
        · -- max is b, g ≤ r : Z ≥ 0, m = g
          have hZ0 : 0 ≤ Z := by
            rw [hZ]
            exact div_nonneg (by linarith) hd.le
          have hm' : m = g := by
            rw [hm, min_eq_left hgb', min_eq_right hgr]
          refine ⟨?_, ?_, ?_⟩
          · rw [show (0 : ℚ) + 12 * ((Z + 4) / 6) = 2 * Z + 8 from by ring,
              clampMod_8_10 (2 * Z + 8) (by linarith) (by linarith)]
            linear_combination hm' + key
          · rw [show (8 : ℚ) + 12 * ((Z + 4) / 6) = 2 * Z + 16 from by ring,
              clampMod_16_20 (2 * Z + 16) (by linarith) (by linarith)]
            linarith [hm']
          · rw [show (4 : ℚ) + 12 * ((Z + 4) / 6) = 2 * Z + 12 from by ring,
              clampMod_12_14 (2 * Z + 12) (by linarith) (by linarith)]
            linarith [hMb]

theorem jsRound_natCast (n : ℕ) : jsRound (n : ℚ) = (n : ℤ) := by
  unfold jsRound
  rw [Int.floor_eq_iff]
  constructor
  · push_cast
    linarith
  · push_cast
    linarith

/-- C8: converting a Color to HSL with `hexToHsl`'s conversion and back
through `hslToHex`'s rounded channels reproduces every channel to within
1 (in fact exactly, since the conversion pair is an exact inverse in
rational arithmetic and the rounded value is the original integer). -/
theorem hsl_roundtrip_within_one (r g b : ℕ) (hr : r ≤ 255) (hg : g ≤ 255) (hb : b ≤ 255) :
    |hslF (rgbToHsl r g b).h (rgbToHsl r g b).s (rgbToHsl r g b).l 0 - (r : ℤ)| ≤ 1 ∧
    |hslF (rgbToHsl r g b).h (rgbToHsl r g b).s (rgbToHsl r g b).l 8 - (g : ℤ)| ≤ 1 ∧
    |hslF (rgbToHsl r g b).h (rgbToHsl r g b).s (rgbToHsl r g b).l 4 - (b : ℤ)| ≤ 1 := by
  have cr1 : ((r : ℚ) / 255) ≤ 1 := by
    rw [div_le_one (by norm_num)]
    exact_mod_cast hr
  have cg1 : ((g : ℚ) / 255) ≤ 1 := by
    rw [div_le_one (by norm_num)]
    exact_mod_cast hg
  have cb1 : ((b : ℚ) / 255) ≤ 1 := by
    rw [div_le_one (by norm_num)]
    exact_mod_cast hb
  obtain ⟨e0, e8, e4⟩ := hslColorVal_inv ((r : ℚ) / 255) ((g : ℚ) / 255) ((b : ℚ) / 255)
    (by positivity) cr1 (by positivity) cg1 (by positivity) cb1
  have f0 : hslF (rgbToHsl r g b).h (rgbToHsl r g b).s (rgbToHsl r g b).l 0 = (r : ℤ) := by
    simp only [rgbToHsl, hslF]
    rw [e0, show (255 : ℚ) * ((r : ℚ) / 255) = (r : ℚ) from by field_simp]
    exact jsRound_natCast r
  have f8 : hslF (rgbToHsl r g b).h (rgbToHsl r g b).s (rgbToHsl r g b).l 8 = (g : ℤ) := by
    simp only [rgbToHsl, hslF]
    rw [e8, show (255 : ℚ) * ((g : ℚ) / 255) = (g : ℚ) from by field_simp]
    exact jsRound_natCast g
  have f4 : hslF (rgbToHsl r g b).h (rgbToHsl r g b).s (rgbToHsl r g b).l 4 = (b : ℤ) := by
    simp only [rgbToHsl, hslF]
    rw [e4, show (255 : ℚ) * ((b : ℚ) / 255) = (b : ℚ) from by field_simp]
    exact jsRound_natCast b
  refine ⟨?_, ?_, ?_⟩ <;> [rw [f0]; rw [f8]; rw [f4]] <;> simp

/-- Witness for C8 at the concrete color (10, 200, 30). -/
theorem hsl_roundtrip_within_one_witness :
    |hslF (rgbToHsl 10 200 30).h (rgbToHsl 10 200 30).s (rgbToHsl 10 200 30).l 0 - (10 : ℤ)| ≤ 1 ∧
    |hslF (rgbToHsl 10 200 30).h (rgbToHsl 10 200 30).s (rgbToHsl 10 200 30).l 8 - (200 : ℤ)| ≤ 1 ∧
    |hslF (rgbToHsl 10 200 30).h (rgbToHsl 10 200 30).s (rgbToHsl 10 200 30).l 4 - (30 : ℤ)| ≤ 1 :=
  hsl_roundtrip_within_one 10 200 30 (by norm_num) (by norm_num) (by norm_num)

end ColorTool
